import Mathlib

/-!
Verification of the static source-code analysis engine of the repository:
the AST analyzer (`src/examples/wasm/src/python/ast_analyzer.py`) and the
security scanner (`src/examples/wasm/src/python/security_scanner.py`).

The Python AST node model is embedded as the inductive `Node` below; each
analyzer routine is translated into a Lean function over that embedding:

* `walk` — `ast.walk` (breadth-first traversal over `children`, the
  embedding of `ast.iter_child_nodes`);
* `getStructure` — `ASTAnalyzer.get_structure`;
* `getMetrics` — `ASTAnalyzer.get_metrics` (with `pySplitlines`/`pyStrip`
  embedding `str.splitlines`/`str.strip` for the common ASCII line
  terminators and whitespace);
* `calcMaxDepth` — `ASTAnalyzer._calculate_max_depth`;
* `astToDict` — `ASTAnalyzer._ast_to_dict`;
* `checkDangerousFunctions` … `checkShellInjection`, `scanSecurity` —
  the rules and driver of `SecurityScanner`;
* `analyze` — the orchestration of `analyze_code` (plus the playground's
  merge of the security findings, which is modelled from the spec).

Scalar-only details of the Python AST that no analyzer routine inspects
(`arguments` nodes, `alias` nodes, operator nodes, `ctx` fields) are kept
as scalar fields of the owning node, so they do not occur as separate
nodes in the traversal; no analyzer rule matches them.
-/

namespace AstEngine

/-! ## Python string primitives -/

/-- Whitespace characters removed by Python's `str.strip()` (ASCII range). -/
def isPySpace (c : Char) : Bool :=
  c = ' ' || c = '\t' || c = '\n' || c = '\r' || c = '\x0b' || c = '\x0c'

/-- Embedding of Python's `str.strip()` (ASCII whitespace). -/
def pyStrip (s : String) : String :=
  ⟨((s.data.dropWhile isPySpace).reverse.dropWhile isPySpace).reverse⟩

/-- Embedding of Python's `str.splitlines()` for the common terminators
`\n`, `\r\n` and `\r`: a trailing terminator does not open a new line. -/
def splitlinesAux : List Char → List Char → List String
  | [], acc => if acc.isEmpty then [] else [⟨acc.reverse⟩]
  | '\r' :: '\n' :: rest, acc => (⟨acc.reverse⟩ : String) :: splitlinesAux rest []
  | '\n' :: rest, acc => (⟨acc.reverse⟩ : String) :: splitlinesAux rest []
  | '\r' :: rest, acc => (⟨acc.reverse⟩ : String) :: splitlinesAux rest []
  | c :: rest, acc => splitlinesAux rest (c :: acc)

/-- Embedding of Python's `str.splitlines()`. -/
def pySplitlines (s : String) : List String :=
  splitlinesAux s.data []

/-! ## The node model (`ast` node taxonomy used by the engine) -/

/-- Python constants as carried by `ast.Constant`. -/
inductive PyConst where
  | none
  | bool (b : Bool)
  | int (n : Int)
  | str (s : String)
deriving DecidableEq, Repr

/-- Binary operator tag of an `ast.BinOp` node; the rules only ever test
for `ast.Add`. -/
inductive BinOpKind where
  | add
  | otherOp (kind : String)
deriving DecidableEq, Repr

/-- The AST node taxonomy: a tagged variant over the closed set of node
kinds consumed by the analyzer and the scanner, each carrying its 1-based
line number and its named fields (child nodes, child-node lists, or
scalars), mirroring the `ast` classes used in the source. -/
inductive Node where
  | module (body : List Node)
  | functionDef (lineno : Nat) (nm : String) (argNames : List String)
      (body : List Node) (decorators : List Node) (returns : Option Node)
  | classDef (lineno : Nat) (nm : String) (bases : List Node) (body : List Node)
  | importStmt (lineno : Nat) (names : List (String × Option String))
  | importFrom (lineno : Nat) (modName : String) (names : List (String × Option String))
  | exprStmt (lineno : Nat) (value : Node)
  | assign (lineno : Nat) (targets : List Node) (value : Node)
  | call (lineno : Nat) (func : Node) (args : List Node) (keywords : List Node)
  | attr (lineno : Nat) (value : Node) (attrName : String)
  | name (lineno : Nat) (id : String)
  | constant (lineno : Nat) (value : PyConst)
  | binOp (lineno : Nat) (left : Node) (op : BinOpKind) (right : Node)
  | joinedStr (lineno : Nat) (values : List Node)
  | ifStmt (lineno : Nat) (test : Node) (body : List Node) (orelse : List Node)
  | forStmt (lineno : Nat) (target : Node) (iter : Node)
      (body : List Node) (orelse : List Node)
  | whileStmt (lineno : Nat) (test : Node) (body : List Node) (orelse : List Node)
  | withStmt (lineno : Nat) (items : List Node) (body : List Node)
  | tryStmt (lineno : Nat) (body : List Node) (handlers : List Node)
      (orelse : List Node) (finalbody : List Node)
  | keyword (lineno : Nat) (arg : Option String) (value : Node)
  | other (kind : String) (lineno : Nat) (kids : List Node)

/-- Embedding of `ast.iter_child_nodes`: the child nodes of a node, in
field order. -/
def children : Node → List Node
  | .module body => body
  | .functionDef _ _ _ body decorators returns => body ++ decorators ++ returns.toList
  | .classDef _ _ bases body => bases ++ body
  | .importStmt _ _ => []
  | .importFrom _ _ _ => []
  | .exprStmt _ value => [value]
  | .assign _ targets value => targets ++ [value]
  | .call _ func args keywords => func :: (args ++ keywords)
  | .attr _ value _ => [value]
  | .name _ _ => []
  | .constant _ _ => []
  | .binOp _ left _ right => [left, right]
  | .joinedStr _ values => values
  | .ifStmt _ test body orelse => test :: (body ++ orelse)
  | .forStmt _ target iter body orelse => target :: iter :: (body ++ orelse)
  | .whileStmt _ test body orelse => test :: (body ++ orelse)
  | .withStmt _ items body => items ++ body
  | .tryStmt _ body handlers orelse finalbody => body ++ handlers ++ orelse ++ finalbody
  | .keyword _ _ value => [value]
  | .other _ _ kids => kids

theorem listNodeWeight (l : List Node) :
    (l.map sizeOf).sum + l.length + 1 = sizeOf l := by
  induction l with
  | nil => simp
  | cons a t ih => simp; omega

/-- The combined size of a node's children is bounded by the node's size;
used for termination of the traversals. -/
theorem childrenWeight (n : Node) :
    ((children n).map sizeOf).sum + (children n).length ≤ sizeOf n := by
  cases n <;> simp only [children]
  case module body => have := listNodeWeight body; simp; omega
  case functionDef lineno nm argNames body decorators returns =>
    have h1 := listNodeWeight body
    have h2 := listNodeWeight decorators
    cases returns with
    | none => simp; omega
    | some r => simp [Option.toList]; omega
  case classDef lineno nm bases body =>
    have h1 := listNodeWeight bases
    have h2 := listNodeWeight body
    simp; omega
  case importStmt lineno names => simp
  case importFrom lineno modName names => simp
  case exprStmt lineno value => simp; omega
  case assign lineno targets value =>
    have := listNodeWeight targets
    simp; omega
  case call lineno func args keywords =>
    have h1 := listNodeWeight args
    have h2 := listNodeWeight keywords
    simp; omega
  case attr lineno value attrName => simp; omega
  case name lineno id => simp
  case constant lineno value => simp
  case binOp lineno left op right =>
    have hop : 1 ≤ sizeOf op := by cases op <;> simp
    simp; omega
  case joinedStr lineno values => have := listNodeWeight values; simp; omega
  case ifStmt lineno test body orelse =>
    have h1 := listNodeWeight body
    have h2 := listNodeWeight orelse
    simp; omega
  case forStmt lineno target iter body orelse =>
    have h1 := listNodeWeight body
    have h2 := listNodeWeight orelse
    simp; omega
  case whileStmt lineno test body orelse =>
    have h1 := listNodeWeight body
    have h2 := listNodeWeight orelse
    simp; omega
  case withStmt lineno items body =>
    have h1 := listNodeWeight items
    have h2 := listNodeWeight body
    simp; omega
  case tryStmt lineno body handlers orelse finalbody =>
    have h1 := listNodeWeight body
    have h2 := listNodeWeight handlers
    have h3 := listNodeWeight orelse
    have h4 := listNodeWeight finalbody
    simp; omega
  case keyword lineno arg value => simp; omega
  case other kind lineno kids => have := listNodeWeight kids; simp; omega

/-- A child node is strictly smaller than its parent. -/
theorem sizeOf_children_lt {c n : Node} (h : c ∈ children n) : sizeOf c < sizeOf n := by
  cases n
  case module body =>
    simp only [children] at h
    have := List.sizeOf_lt_of_mem h; simp; try omega
  case functionDef lineno nm argNames body decorators returns =>
    simp only [children, List.mem_append] at h
    rcases h with (h | h) | h
    · have := List.sizeOf_lt_of_mem h; simp; try omega
    · have := List.sizeOf_lt_of_mem h; simp; try omega
    · cases returns with
      | none => exact absurd h (by simp)
      | some r =>
        simp only [Option.toList, List.mem_singleton] at h
        subst h; simp; try omega
  case classDef lineno nm bases body =>
    simp only [children, List.mem_append] at h
    rcases h with h | h <;> (have hs := List.sizeOf_lt_of_mem h; simp; try omega)
  case importStmt lineno names => exact absurd h (by simp [children])
  case importFrom lineno modName names => exact absurd h (by simp [children])
  case exprStmt lineno value =>
    simp only [children, List.mem_singleton] at h
    subst h; simp; try omega
  case assign lineno targets value =>
    simp only [children, List.mem_append, List.mem_singleton] at h
    rcases h with h | h
    · have := List.sizeOf_lt_of_mem h; simp; try omega
    · subst h; simp; try omega
  case call lineno func args keywords =>
    simp only [children, List.mem_cons, List.mem_append] at h
    rcases h with h | h | h
    · subst h; simp; try omega
    · have := List.sizeOf_lt_of_mem h; simp; try omega
    · have := List.sizeOf_lt_of_mem h; simp; try omega
  case attr lineno value attrName =>
    simp only [children, List.mem_singleton] at h
    subst h; simp; try omega
  case name lineno id => exact absurd h (by simp [children])
  case constant lineno value => exact absurd h (by simp [children])
  case binOp lineno left op right =>
    simp only [children, List.mem_cons, List.mem_singleton, List.not_mem_nil,
      or_false] at h
    rcases h with h | h <;> (subst h; simp; try omega)
  case joinedStr lineno values =>
    simp only [children] at h
    have := List.sizeOf_lt_of_mem h; simp; try omega
  case ifStmt lineno test body orelse =>
    simp only [children, List.mem_cons, List.mem_append] at h
    rcases h with h | h | h
    · subst h; simp; try omega
    · have := List.sizeOf_lt_of_mem h; simp; try omega
    · have := List.sizeOf_lt_of_mem h; simp; try omega
  case forStmt lineno target iter body orelse =>
    simp only [children, List.mem_cons, List.mem_append] at h
    rcases h with h | h | h | h
    · subst h; simp; try omega
    · subst h; simp; try omega
    · have := List.sizeOf_lt_of_mem h; simp; try omega
    · have := List.sizeOf_lt_of_mem h; simp; try omega
  case whileStmt lineno test body orelse =>
    simp only [children, List.mem_cons, List.mem_append] at h
    rcases h with h | h | h
    · subst h; simp; try omega
    · have := List.sizeOf_lt_of_mem h; simp; try omega
    · have := List.sizeOf_lt_of_mem h; simp; try omega
  case withStmt lineno items body =>
    simp only [children, List.mem_append] at h
    rcases h with h | h <;> (have hs := List.sizeOf_lt_of_mem h; simp; try omega)
  case tryStmt lineno body handlers orelse finalbody =>
    simp only [children, List.mem_append] at h
    rcases h with ((h | h) | h) | h <;> (have hs := List.sizeOf_lt_of_mem h; simp; try omega)
  case keyword lineno arg value =>
    simp only [children, List.mem_singleton] at h
    subst h; simp
  case other kind lineno kids =>
    simp only [children] at h
    have := List.sizeOf_lt_of_mem h; simp; try omega

/-- Worker for `walk`: breadth-first traversal with an explicit queue,
mirroring the deque of `ast.walk`. -/
def walkAux : List Node → List Node
  | [] => []
  | n :: rest => n :: walkAux (rest ++ children n)
termination_by l => (l.map sizeOf).sum + l.length
decreasing_by
  simp only [List.map_append, List.sum_append, List.length_append, List.map_cons,
    List.sum_cons, List.length_cons]
  have := childrenWeight n
  omega

/-- Embedding of `ast.walk`: all nodes of the tree, starting at the root,
in breadth-first order. -/
def walk (t : Node) : List Node := walkAux [t]

/-! ## Structural extractor (`ASTAnalyzer.get_structure`) -/

/-- Embedding of `ast.get_docstring(node) is not None`: the first statement
of the body is a bare string-literal expression. -/
def hasDocstring : List Node → Bool
  | .exprStmt _ (.constant _ (.str _)) :: _ => true
  | _ => false

/-- Modelled from the spec: the source renders annotation, decorator and
base-class subtrees back to text with `ast.unparse`, a source-reconstruction
capability of the parsing front-end that is not part of the two analyzed
modules; §4.1 allows it to be "built ad hoc as an unparse routine over the
closed node set".  `fuel` bounds the recursion depth; the node
count always suffices. -/
def unparseF : Nat → Node → String
  | 0, _ => ""
  | fuel + 1, n =>
    match n with
    | .name _ id => id
    | .attr _ value attrName => unparseF fuel value ++ "." ++ attrName
    | .constant _ (.str s) => "'" ++ s ++ "'"
    | .constant _ (.int i) => toString i
    | .constant _ (.bool b) => if b then "True" else "False"
    | .constant _ .none => "None"
    | .call _ func _ _ => unparseF fuel func ++ "(...)"
    | _ => "<expr>"

/-- Node count of a tree: an executable recursion-depth bound. -/
def nodeCount (n : Node) : Nat := (walk n).length

/-- Source text of an expression subtree (see `unparseF`); the node count
bounds the nesting depth, so the fuel always suffices. -/
def unparse (n : Node) : String := unparseF (nodeCount n) n

/-- One record of `structure["functions"]`. -/
structure FunctionInfo where
  nm : String
  lineno : Nat
  args : List String
  returns : Option String
  decorators : List String
  hasDocstring : Bool
deriving DecidableEq, Repr

/-- One record of `structure["classes"]`. -/
structure ClassInfo where
  nm : String
  lineno : Nat
  bases : List String
  methods : List String
  hasDocstring : Bool
deriving DecidableEq, Repr

/-- One record of `structure["imports"]`. -/
structure ImportInfo where
  moduleName : String
  asname : Option String
  lineno : Nat
deriving DecidableEq, Repr

/-- The structure report assembled by `get_structure` (the `globals` list
is declared by the source but never filled). -/
structure StructureReport where
  functions : List FunctionInfo
  classes : List ClassInfo
  imports : List ImportInfo
  globals : List String
deriving DecidableEq, Repr

/-- The function record emitted for a `FunctionDef` node (`get_structure`,
first branch); `none` for any other node. -/
def functionRecord : Node → Option FunctionInfo
  | .functionDef lineno nm argNames body decorators returns =>
      some { nm := nm, lineno := lineno, args := argNames,
             returns := returns.map unparse,
             decorators := decorators.map unparse,
             hasDocstring := hasDocstring body }
  | _ => none

/-- The class record emitted for a `ClassDef` node (`get_structure`,
second branch); `none` for any other node. -/
def classRecord : Node → Option ClassInfo
  | .classDef lineno nm bases body =>
      some { nm := nm, lineno := lineno,
             bases := bases.map unparse,
             methods := body.filterMap (fun item =>
               match item with
               | .functionDef _ mnm _ _ _ _ => some mnm
               | _ => none),
             hasDocstring := hasDocstring body }
  | _ => none

/-- The import records emitted for an `Import`/`ImportFrom` node
(`get_structure`, third branch): one record per imported alias; for a
from-import the symbol name is folded into the module path. -/
def importRecords : Node → List ImportInfo
  | .importStmt lineno names =>
      names.map (fun a => { moduleName := a.1, asname := a.2, lineno := lineno })
  | .importFrom lineno modName names =>
      names.map (fun a =>
        { moduleName := modName ++ "." ++ a.1, asname := a.2, lineno := lineno })
  | _ => []

/-- Embedding of `ASTAnalyzer.get_structure`: one walk over the tree,
appending to the `functions`, `classes` and `imports` lists as the
matching node kinds are encountered. -/
def getStructure (t : Node) : StructureReport :=
  { functions := (walk t).filterMap functionRecord
    classes := (walk t).filterMap classRecord
    imports := (walk t).flatMap importRecords
    globals := [] }

/-! ## Metrics calculator (`ASTAnalyzer.get_metrics`) -/

/-- Line predicate of `_count_blank_lines`: empty after stripping. -/
def isBlankLine (line : String) : Bool := (pyStrip line).isEmpty

/-- Line predicate of `_count_comment_lines`: starts with `#` after
stripping. -/
def isCommentLine (line : String) : Bool := (pyStrip line).startsWith "#"

/-- Line predicate of `_count_code_lines`: non-blank and not a comment. -/
def isCodeLine (line : String) : Bool :=
  !(pyStrip line).isEmpty && !(pyStrip line).startsWith "#"

/-- True for the control-flow/definition node kinds counted by
`_calculate_max_depth`: If, For, While, With, Try, FunctionDef, ClassDef. -/
def isControl : Node → Bool
  | .ifStmt .. => true
  | .forStmt .. => true
  | .whileStmt .. => true
  | .withStmt .. => true
  | .tryStmt .. => true
  | .functionDef .. => true
  | .classDef .. => true
  | _ => false

/-- Embedding of `ASTAnalyzer._calculate_max_depth`: depth-first walk
keeping the running depth, incrementing it only when descending into a
control node (the loop over `iter_child_nodes` is rendered as a fold;
`attach` only carries the membership proof for termination). -/
def calcMaxDepth (n : Node) (currentDepth : Nat) : Nat :=
  (children n).attach.foldl
    (fun maxDepth c =>
      max maxDepth
        (calcMaxDepth c.1 (if isControl c.1 then currentDepth + 1 else currentDepth)))
    currentDepth
termination_by sizeOf n
decreasing_by exact sizeOf_children_lt c.2

/-- `calcMaxDepth` with the `attach` scaffolding removed. -/
theorem calcMaxDepth_eq (n : Node) (d : Nat) :
    calcMaxDepth n d =
      (children n).foldl
        (fun maxDepth c =>
          max maxDepth (calcMaxDepth c (if isControl c then d + 1 else d))) d := by
  rw [calcMaxDepth]
  exact List.foldl_attach (children n)
    (fun maxDepth c => max maxDepth (calcMaxDepth c (if isControl c then d + 1 else d))) d

/-- True for `FunctionDef` nodes (`isinstance(node, ast.FunctionDef)`). -/
def isFunctionDef : Node → Bool
  | .functionDef .. => true
  | _ => false

/-- True for `ClassDef` nodes. -/
def isClassDef : Node → Bool
  | .classDef .. => true
  | _ => false

/-- True for `Import`/`ImportFrom` nodes. -/
def isImportNode : Node → Bool
  | .importStmt .. => true
  | .importFrom .. => true
  | _ => false

/-- The metrics dictionary of `get_metrics`. -/
structure MetricsReport where
  totalLines : Nat
  codeLines : Nat
  commentLines : Nat
  blankLines : Nat
  functionCount : Nat
  classCount : Nat
  importCount : Nat
  maxNestingDepth : Nat
deriving DecidableEq, Repr

/-- Embedding of `ASTAnalyzer.get_metrics`: physical-line counts over the
source text, node-kind counts over the walk, and the maximum nesting
depth. -/
def getMetrics (sourceCode : String) (t : Node) : MetricsReport :=
  { totalLines := (pySplitlines sourceCode).length
    codeLines := (pySplitlines sourceCode).countP (fun l => isCodeLine l)
    commentLines := (pySplitlines sourceCode).countP (fun l => isCommentLine l)
    blankLines := (pySplitlines sourceCode).countP (fun l => isBlankLine l)
    functionCount := (walk t).countP (fun n => isFunctionDef n)
    classCount := (walk t).countP (fun n => isClassDef n)
    importCount := (walk t).countP (fun n => isImportNode n)
    maxNestingDepth := calcMaxDepth t 0 }

/-! ## Tree serializer (`ASTAnalyzer._ast_to_dict` / `get_ast_json`) -/

/-- Generic records produced by the serializer (the JSON value shape). -/
inductive JValue where
  | null
  | str (s : String)
  | num (n : Int)
  | bool (b : Bool)
  | arr (xs : List JValue)
  | obj (fields : List (String × JValue))

/-- The `type` tag written by `_ast_to_dict`: the node's kind name. -/
def kindName : Node → String
  | .module _ => "Module"
  | .functionDef .. => "FunctionDef"
  | .classDef .. => "ClassDef"
  | .importStmt .. => "Import"
  | .importFrom .. => "ImportFrom"
  | .exprStmt .. => "Expr"
  | .assign .. => "Assign"
  | .call .. => "Call"
  | .attr .. => "Attribute"
  | .name .. => "Name"
  | .constant .. => "Constant"
  | .binOp .. => "BinOp"
  | .joinedStr .. => "JoinedStr"
  | .ifStmt .. => "If"
  | .forStmt .. => "For"
  | .whileStmt .. => "While"
  | .withStmt .. => "With"
  | .tryStmt .. => "Try"
  | .keyword .. => "keyword"
  | .other k _ _ => k

/-- Line number of a node (`node.lineno`); the `Module` root carries none. -/
def linenoOf : Node → Option Nat
  | .module _ => Option.none
  | .functionDef lineno .. => some lineno
  | .classDef lineno .. => some lineno
  | .importStmt lineno _ => some lineno
  | .importFrom lineno .. => some lineno
  | .exprStmt lineno _ => some lineno
  | .assign lineno .. => some lineno
  | .call lineno .. => some lineno
  | .attr lineno .. => some lineno
  | .name lineno _ => some lineno
  | .constant lineno _ => some lineno
  | .binOp lineno .. => some lineno
  | .joinedStr lineno _ => some lineno
  | .ifStmt lineno .. => some lineno
  | .forStmt lineno .. => some lineno
  | .whileStmt lineno .. => some lineno
  | .withStmt lineno .. => some lineno
  | .tryStmt lineno .. => some lineno
  | .keyword lineno .. => some lineno
  | .other _ lineno _ => some lineno

/-- Scalar rendered as in `_ast_to_dict`: `str(value)` for present values,
an explicit null for absent ones. -/
def scalarJ : PyConst → JValue
  | .none => .null
  | .bool b => .str (if b then "True" else "False")
  | .int i => .str (toString i)
  | .str s => .str s

/-- Embedding of `ASTAnalyzer._ast_to_dict` with a recursion-depth bound:
the record holds the kind tag, position when present, and one entry per
declared field; node fields recurse, list fields recurse element-wise,
scalar fields are rendered as strings (absent values as null).  `fuel`
bounds the recursion depth; the node count always suffices, so `astToDict`
below is total over the tree. -/
def astToDictF : Nat → Node → JValue
  | 0, _ => .null
  | fuel + 1, n =>
    let rec0 := astToDictF fuel
    let posFields :=
      match linenoOf n with
      | some ln => [("lineno", JValue.num ln), ("col_offset", JValue.num 0)]
      | Option.none => []
    let dataFields : List (String × JValue) :=
      match n with
      | .module body => [("body", .arr (body.map rec0))]
      | .functionDef _ nm argNames body decorators returns =>
          [("name", .str nm),
           ("args", .arr (argNames.map JValue.str)),
           ("body", .arr (body.map rec0)),
           ("decorator_list", .arr (decorators.map rec0)),
           ("returns", match returns with
                       | some r => rec0 r
                       | Option.none => .null)]
      | .classDef _ nm bases body =>
          [("name", .str nm), ("bases", .arr (bases.map rec0)),
           ("body", .arr (body.map rec0))]
      | .importStmt _ names =>
          [("names", .arr (names.map (fun a =>
              JValue.obj [("name", .str a.1),
                          ("asname", match a.2 with
                                     | some s => JValue.str s
                                     | Option.none => JValue.null)])))]
      | .importFrom _ modName names =>
          [("module", .str modName),
           ("names", .arr (names.map (fun a =>
              JValue.obj [("name", .str a.1),
                          ("asname", match a.2 with
                                     | some s => JValue.str s
                                     | Option.none => JValue.null)])))]
      | .exprStmt _ value => [("value", rec0 value)]
      | .assign _ targets value =>
          [("targets", .arr (targets.map rec0)), ("value", rec0 value)]
      | .call _ func args keywords =>
          [("func", rec0 func), ("args", .arr (args.map rec0)),
           ("keywords", .arr (keywords.map rec0))]
      | .attr _ value attrName => [("value", rec0 value), ("attr", .str attrName)]
      | .name _ id => [("id", .str id)]
      | .constant _ v => [("value", scalarJ v)]
      | .binOp _ left op right =>
          [("left", rec0 left),
           ("op", .str (match op with
                        | .add => "Add"
                        | .otherOp k => k)),
           ("right", rec0 right)]
      | .joinedStr _ values => [("values", .arr (values.map rec0))]
      | .ifStmt _ test body orelse =>
          [("test", rec0 test), ("body", .arr (body.map rec0)),
           ("orelse", .arr (orelse.map rec0))]
      | .forStmt _ target iter body orelse =>
          [("target", rec0 target), ("iter", rec0 iter),
           ("body", .arr (body.map rec0)), ("orelse", .arr (orelse.map rec0))]
      | .whileStmt _ test body orelse =>
          [("test", rec0 test), ("body", .arr (body.map rec0)),
           ("orelse", .arr (orelse.map rec0))]
      | .withStmt _ items body =>
          [("items", .arr (items.map rec0)), ("body", .arr (body.map rec0))]
      | .tryStmt _ body handlers orelse finalbody =>
          [("body", .arr (body.map rec0)), ("handlers", .arr (handlers.map rec0)),
           ("orelse", .arr (orelse.map rec0)),
           ("finalbody", .arr (finalbody.map rec0))]
      | .keyword _ arg value =>
          [("arg", match arg with
                   | some s => JValue.str s
                   | Option.none => JValue.null),
           ("value", rec0 value)]
      | .other _ _ kids => [("children", .arr (kids.map rec0))]
    .obj (("type", JValue.str (kindName n)) :: posFields ++ dataFields)

/-- Embedding of `ASTAnalyzer._ast_to_dict` (the JSON payload of
`get_ast_json`). -/
def astToDict (n : Node) : JValue := astToDictF (nodeCount n) n

/-! ## Security scanner (`security_scanner.py`) -/

/-- `SecurityScanner.CRITICAL`. -/
def CRITICAL : String := "CRITICAL"

/-- `SecurityScanner.HIGH`. -/
def HIGH : String := "HIGH"

/-- `SecurityScanner.MEDIUM`. -/
def MEDIUM : String := "MEDIUM"

/-- `SecurityScanner.LOW`. -/
def LOW : String := "LOW"

/-- `SecurityScanner.INFO`. -/
def INFO : String := "INFO"

/-- One security finding, as assembled by `SecurityScanner._add_issue`. -/
structure Issue where
  severity : String
  title : String
  description : String
  lineno : Nat
  recommendation : String
deriving DecidableEq, Repr

/-- The `dangerous_funcs` table of `_check_dangerous_functions`:
function name, severity, description. -/
def dangerousFuncs : List (String × String × String) :=
  [("eval", (HIGH, "Arbitrary code execution risk")),
   ("exec", (HIGH, "Arbitrary code execution risk")),
   ("compile", (MEDIUM, "Dynamic code compilation")),
   ("__import__", (MEDIUM, "Dynamic import can load malicious code"))]

/-- Issues contributed by one walked node in
`_check_dangerous_functions`: a direct call to a bare name listed in
`dangerousFuncs`. -/
def checkDangerousFunctionsNode : Node → List Issue
  | .call lineno (.name _ fid) _ _ =>
    match dangerousFuncs.lookup fid with
    | some (sev, desc) =>
        [{ severity := sev,
           title := "Dangerous function: " ++ fid ++ "()",
           description := desc,
           lineno := lineno,
           recommendation := "Avoid using " ++ fid ++ "(). " ++
             "Consider safer alternatives like ast.literal_eval() for eval(), " ++
             "or refactor to eliminate dynamic code execution." }]
    | Option.none => []
  | _ => []

/-- Embedding of `SecurityScanner._check_dangerous_functions`. -/
def checkDangerousFunctions (t : Node) : List Issue :=
  (walk t).flatMap checkDangerousFunctionsNode

/-- `ast.Constant` holding a string. -/
def isStrConstant : Node → Bool
  | .constant _ (.str _) => true
  | _ => false

/-- Embedding of `SecurityScanner._contains_string`: some node of the
subtree is a string constant. -/
def containsString (n : Node) : Bool := (walk n).any isStrConstant

/-- Issues contributed by one walked node in `_check_sql_injection`:
a call to an attribute named `execute` whose first positional argument is
an f-string, or a `+` expression containing a string literal. -/
def checkSqlInjectionNode : Node → List Issue
  | .call lineno (.attr _ _ attrName) (firstArg :: _) _ =>
    if attrName = "execute" then
    match firstArg with
    | .joinedStr _ _ =>
        [{ severity := HIGH,
           title := "SQL Injection: f-string in SQL query",
           description := "Using f-strings for SQL queries allows injection attacks",
           lineno := lineno,
           recommendation := "Use parameterized queries with placeholders: " ++
             "execute('SELECT * FROM users WHERE id = ?', [user_id])" }]
    | .binOp _ _ .add _ =>
        if containsString firstArg then
          [{ severity := HIGH,
             title := "SQL Injection: String concatenation in query",
             description := "String concatenation in SQL queries is unsafe",
             lineno := lineno,
             recommendation := "Use parameterized queries instead of concatenation" }]
        else []
    | _ => []
    else []
  | _ => []

/-- Embedding of `SecurityScanner._check_sql_injection`. -/
def checkSqlInjection (t : Node) : List Issue :=
  (walk t).flatMap checkSqlInjectionNode

/-- Issues contributed by one walked node in `_check_path_traversal`:
a call to a bare name in {open, read, write} whose first argument is a
name reference or a binary expression. -/
def checkPathTraversalNode : Node → List Issue
  | .call lineno (.name _ fid) (firstArg :: _) _ =>
    if fid == "open" || fid == "read" || fid == "write" then
      match firstArg with
      | .name _ _ =>
          [{ severity := MEDIUM,
             title := "Potential path traversal",
             description := "User-controlled file paths can lead to unauthorized access",
             lineno := lineno,
             recommendation := "Validate and sanitize file paths. Use os.path.basename() " ++
               "or pathlib.Path.resolve() to prevent directory traversal." }]
      | .binOp _ _ _ _ =>
          [{ severity := MEDIUM,
             title := "Potential path traversal",
             description := "User-controlled file paths can lead to unauthorized access",
             lineno := lineno,
             recommendation := "Validate and sanitize file paths. Use os.path.basename() " ++
               "or pathlib.Path.resolve() to prevent directory traversal." }]
      | _ => []
    else []
  | _ => []

/-- Embedding of `SecurityScanner._check_path_traversal`. -/
def checkPathTraversal (t : Node) : List Issue :=
  (walk t).flatMap checkPathTraversalNode

/-- Issues contributed by one walked node in
`_check_unsafe_deserialization`: a call to `pickle.loads` or `pickle.load`
where the receiver is literally the bare name `pickle` (the scanner
performs no import/alias resolution). -/
def checkUnsafeDeserializationNode : Node → List Issue
  | .call lineno (.attr _ (.name _ vid) attrName) _ _ =>
    if vid == "pickle" && (attrName == "loads" || attrName == "load") then
      [{ severity := HIGH,
         title := "Unsafe deserialization: pickle",
         description := "pickle.loads() can execute arbitrary code from untrusted data",
         lineno := lineno,
         recommendation := "Use JSON or other safe serialization formats. " ++
           "If pickle is required, ensure data source is trusted and verified." }]
    else []
  | _ => []

/-- Embedding of `SecurityScanner._check_unsafe_deserialization`. -/
def checkUnsafeDeserialization (t : Node) : List Issue :=
  (walk t).flatMap checkUnsafeDeserializationNode

/-- Character class `[\w!@#$%^&*]` of the password pattern (ASCII `\w`). -/
def isPasswordChar (c : Char) : Bool :=
  c.isAlphanum || c = '_' || c = '!' || c = '@' || c = '#' || c = '$' ||
  c = '%' || c = '^' || c = '&' || c = '*'

/-- Character class `[\w-]` of the api-key/secret-key patterns. -/
def isKeyChar (c : Char) : Bool := c.isAlphanum || c = '_' || c = '-'

/-- Character class `[\w.-]` of the token pattern. -/
def isTokenChar (c : Char) : Bool := c.isAlphanum || c = '_' || c = '.' || c = '-'

/-- Character class `[\w/+]` of the aws-secret pattern. -/
def isAwsChar (c : Char) : Bool := c.isAlphanum || c = '_' || c = '/' || c = '+'

/-- One secret pattern of `_check_hardcoded_secrets`, of the common shape
`kw1 [_-]? kw2 \s* = \s* ['"] cls+ ['"]` (with `kw2` empty and no optional
separator for the single-keyword patterns). -/
structure SecretPattern where
  kw1 : List Char
  optSep : Bool
  kw2 : List Char
  cls : Char → Bool

/-- Match a literal (already lower-cased) keyword. -/
def matchLit : List Char → List Char → Option (List Char)
  | [], cs => some cs
  | _, [] => Option.none
  | p :: ps, c :: cs => if c = p then matchLit ps cs else Option.none

/-- Match one-or-more characters of a class followed by nothing consumed:
returns the remainder after the maximal run (the classes contain no quote
characters, so the maximal run is what the regex engine takes). -/
def matchClassPlus (cls : Char → Bool) : List Char → Option (List Char)
  | [] => Option.none
  | c :: cs => if cls c then some (cs.dropWhile cls) else Option.none

/-- A quote character `['"]`. -/
def isQuote (c : Char) : Bool := c = '\'' || c = '"'

/-- Match one secret pattern at the start of (a suffix of) a line. -/
def matchSecretAt (p : SecretPattern) (cs : List Char) : Bool :=
  (Option.isSome (do
    let cs ← matchLit p.kw1 cs
    let cs := if p.optSep then
        match cs with
        | c :: rest => if c = '_' || c = '-' then rest else cs
        | [] => cs
      else cs
    let cs ← matchLit p.kw2 cs
    let cs := cs.dropWhile isPySpace
    let cs ← match cs with
             | '=' :: rest => some rest
             | _ => Option.none
    let cs := cs.dropWhile isPySpace
    let cs ← match cs with
             | c :: rest => if isQuote c then some rest else Option.none
             | [] => Option.none
    let cs ← matchClassPlus p.cls cs
    match cs with
    | c :: _ => if isQuote c then some () else Option.none
    | [] => Option.none))

/-- `re.search`: try the pattern at every start position. -/
def searchSecret (p : SecretPattern) : List Char → Bool
  | [] => false
  | c :: rest => matchSecretAt p (c :: rest) || searchSecret p rest

/-- The `secret_patterns` table: pattern and secret type, in source
order.  The regexes are applied with `re.IGNORECASE`; here the line is
lower-cased character-wise and the keywords are lower-case. -/
def secretPatterns : List (SecretPattern × String) :=
  [(⟨"password".data, false, [], isPasswordChar⟩, "Password"),
   (⟨"api".data, true, "key".data, isKeyChar⟩, "API Key"),
   (⟨"secret".data, true, "key".data, isKeyChar⟩, "Secret Key"),
   (⟨"token".data, false, [], isTokenChar⟩, "Token"),
   (⟨"aws".data, true, "secret".data, isAwsChar⟩, "AWS Secret")]

/-- Embedding of `SecurityScanner._check_hardcoded_secrets`: for each
physical line (numbered from 1) and each pattern, in order, emit a
CRITICAL issue when the pattern matches somewhere in the line. -/
def checkHardcodedSecrets (sourceCode : String) : List Issue :=
  (pySplitlines sourceCode).enum.flatMap (fun le =>
    secretPatterns.filterMap (fun ps =>
      if searchSecret ps.1 (le.2.data.map Char.toLower) then
        some { severity := CRITICAL,
               title := "Hardcoded secret: " ++ ps.2,
               description := ps.2 ++ " found in source code",
               lineno := le.1 + 1,
               recommendation := "Move secrets to environment variables or secure vault. " ++
                 "Use os.getenv() or python-dotenv to load from .env files." }
      else Option.none))

/-- Issues contributed by one walked node in `_check_weak_crypto`:
a call to `hashlib.md5` or `hashlib.sha1`. -/
def checkWeakCryptoNode : Node → List Issue
  | .call lineno (.attr _ (.name _ vid) attrName) _ _ =>
    if vid == "hashlib" && (attrName == "md5" || attrName == "sha1") then
      [{ severity := MEDIUM,
         title := "Weak cryptographic algorithm: " ++ attrName,
         description := attrName.toUpper ++ " is cryptographically weak",
         lineno := lineno,
         recommendation := "Use stronger algorithms like SHA-256 or SHA-512 " ++
           "for cryptographic purposes." }]
    else []
  | _ => []

/-- Embedding of `SecurityScanner._check_weak_crypto`. -/
def checkWeakCrypto (t : Node) : List Issue :=
  (walk t).flatMap checkWeakCryptoNode

/-- Issues contributed by one walked node in `_check_shell_injection`.
The source reads

```
if isinstance(node.func, ast.Attribute):
    if (isinstance(node.func.value, ast.Name)
            and node.func.value.id == "os"
            and node.func.attr == "system"):
        self._add_issue(...)
elif isinstance(node.func, ast.Attribute) and node.func.attr in (
        "call", "run", "Popen"):
    for keyword in node.keywords: ...
```

so the `elif` arm pairs with the **outer** `isinstance(node.func,
ast.Attribute)` test: it is only evaluated when `node.func` is *not* an
`Attribute`, and then its own `isinstance` conjunct fails.  The
`shell=True` arm is therefore unreachable, and the rule only ever emits
the `os.system` finding; this embedding reproduces that behaviour. -/
def checkShellInjectionNode : Node → List Issue
  | .call lineno func _ _ =>
    match func with
    | .attr _ value attrName =>
        if (match value with
            | .name _ vid => vid == "os"
            | _ => false) && attrName == "system" then
          [{ severity := HIGH,
             title := "Shell injection risk: os.system()",
             description := "os.system() with user input can execute arbitrary commands",
             lineno := lineno,
             recommendation := "Use subprocess.run() with shell=False and argument list. " ++
               "Validate and sanitize all user input." }]
        else []
    | _ => []
  | _ => []

/-- Embedding of `SecurityScanner._check_shell_injection`. -/
def checkShellInjection (t : Node) : List Issue :=
  (walk t).flatMap checkShellInjectionNode

/-- All issues in rule-execution order: the seven checks of
`SecurityScanner.scan`, in source order, each appending its findings. -/
def runAllRules (sourceCode : String) (t : Node) : List Issue :=
  checkDangerousFunctions t ++ checkSqlInjection t ++ checkPathTraversal t ++
  checkUnsafeDeserialization t ++ checkHardcodedSecrets sourceCode ++
  checkWeakCrypto t ++ checkShellInjection t

/-- The `severity_order` list of `SecurityScanner.scan`. -/
def severityOrder : List String := [CRITICAL, HIGH, MEDIUM, LOW, INFO]

/-- The sort key of `scan`: `severity_order.index(issue["severity"])`. -/
def severityKey (i : Issue) : Nat := severityOrder.indexOf i.severity

/-- The comparison corresponding to sorting by `severityKey`. -/
def scanLE (a b : Issue) : Bool := decide (severityKey a ≤ severityKey b)

/-- Embedding of `SecurityScanner.scan` / `scan_security`: run all rules,
then stably sort by severity rank (`list.sort` with a key function is a
stable sort; `List.mergeSort` is the matching stable sort by `scanLE`). -/
def scanSecurity (sourceCode : String) (t : Node) : List Issue :=
  (runAllRules sourceCode t).mergeSort scanLE

/-! ## Orchestrator (`analyze_code`, plus the findings merge) -/

/-- Failure of the parsing front-end, as distinguished by the two
`except` clauses of `ASTAnalyzer.parse`: a `SyntaxError` carrying a line
number and message, or any other exception. -/
inductive ParseExc where
  | syntaxError (lineno : Nat) (msg : String)
  | otherExc (msg : String)
deriving DecidableEq, Repr

/-- The message appended to `self.errors` by `ASTAnalyzer.parse` for each
failure kind. -/
def parseErrorMessage : ParseExc → String
  | .syntaxError lineno msg => "Syntax error at line " ++ toString lineno ++ ": " ++ msg
  | .otherExc msg => "Parse error: " ++ msg

/-- The result object built by the orchestrator: `success` plus either
`errors` or the four component outputs. -/
structure AnalysisResult where
  success : Bool
  errors : List String
  structureReport : Option StructureReport
  metrics : Option MetricsReport
  serializedTree : Option JValue
  findings : Option (List Issue)

/-- Modelled from the spec: the full orchestrator `analyze` of §4.5.  The
parse-failure arm and the assembly of `structure`, `metrics` and the
serialized tree are the embedding of `analyze_code` (ast_analyzer.py);
the playground page that additionally runs `scan_security` over the same
tree and merges the `findings` list into the result is part of the
repository but not among the analyzed modules, so that merge is taken
from the spec ("assemble AnalysisResult{success:true, structure, metrics,
serialized_tree, findings}").  The parsing front-end is the external
collaborator of §6 and is passed as a function. -/
def analyze (parseFrontEnd : String → Except ParseExc Node) (sourceCode : String) :
    AnalysisResult :=
  match parseFrontEnd sourceCode with
  | .error e =>
      { success := false, errors := [parseErrorMessage e],
        structureReport := Option.none, metrics := Option.none,
        serializedTree := Option.none, findings := Option.none }
  | .ok tree =>
      { success := true, errors := [],
        structureReport := some (getStructure tree),
        metrics := some (getMetrics sourceCode tree),
        serializedTree := some (astToDict tree),
        findings := some (scanSecurity sourceCode tree) }

end AstEngine

namespace AstEngine

/-! ## Concrete example trees and findings

The trees are the ASTs the front-end produces for the one- and two-line
inputs named in the testable properties (`eval(x)`, `os.system(cmd)`,
`subprocess.run(cmd, shell=True)`, `subprocess.run(cmd, shell=False)`,
`pickle.loads(data)`, and `import pickle as pk` / `pk.loads(data)`). -/

/-- AST of `eval(x)`. -/
def evalTree : Node :=
  .module [.exprStmt 1 (.call 1 (.name 1 "eval") [.name 1 "x"] [])]

/-- AST of `os.system(cmd)`. -/
def osSystemTree : Node :=
  .module [.exprStmt 1 (.call 1 (.attr 1 (.name 1 "os") "system") [.name 1 "cmd"] [])]

/-- AST of `subprocess.run(cmd, shell=True)`. -/
def shellTrueTree : Node :=
  .module [.exprStmt 1 (.call 1 (.attr 1 (.name 1 "subprocess") "run")
    [.name 1 "cmd"] [.keyword 1 (some "shell") (.constant 1 (.bool true))])]

/-- AST of `subprocess.run(cmd, shell=False)`. -/
def shellFalseTree : Node :=
  .module [.exprStmt 1 (.call 1 (.attr 1 (.name 1 "subprocess") "run")
    [.name 1 "cmd"] [.keyword 1 (some "shell") (.constant 1 (.bool false))])]

/-- AST of `import pickle as pk` followed by `pk.loads(data)`: the
pickling module is imported under a local alias and the deserializing
call goes through that alias. -/
def pickleAliasTree : Node :=
  .module [.importStmt 1 [("pickle", some "pk")],
           .exprStmt 2 (.call 2 (.attr 2 (.name 2 "pk") "loads") [.name 2 "data"] [])]

/-- AST of `pickle.loads(data)`. -/
def pickleTree : Node :=
  .module [.exprStmt 1 (.call 1 (.attr 1 (.name 1 "pickle") "loads") [.name 1 "data"] [])]

/-- The finding the scan produces for `eval(x)`. -/
def evalFinding : Issue :=
  { severity := HIGH,
    title := "Dangerous function: eval()",
    description := "Arbitrary code execution risk",
    lineno := 1,
    recommendation := "Avoid using eval(). " ++
      "Consider safer alternatives like ast.literal_eval() for eval(), " ++
      "or refactor to eliminate dynamic code execution." }

/-- The finding the scan produces for `os.system(cmd)`. -/
def osFinding : Issue :=
  { severity := HIGH,
    title := "Shell injection risk: os.system()",
    description := "os.system() with user input can execute arbitrary commands",
    lineno := 1,
    recommendation := "Use subprocess.run() with shell=False and argument list. " ++
      "Validate and sanitize all user input." }

/-- The finding the scan produces for `pickle.loads(data)` at a given
line. -/
def pickleFindingAt (ln : Nat) : Issue :=
  { severity := HIGH,
    title := "Unsafe deserialization: pickle",
    description := "pickle.loads() can execute arbitrary code from untrusted data",
    lineno := ln,
    recommendation := "Use JSON or other safe serialization formats. " ++
      "If pickle is required, ensure data source is trusted and verified." }

/-! ## Spec-side definitions used to state the claims -/

/-- A direct call to a bare name listed in the dangerous-function table
(the match condition of `_check_dangerous_functions`). -/
def isDangerousCall : Node → Bool
  | .call _ (.name _ fid) _ _ => (dangerousFuncs.lookup fid).isSome
  | _ => false

/-- Maximum of a list of naturals (0 for the empty list). -/
def maxNat (l : List Nat) : Nat := l.foldr max 0

/-- The number of control-kind nodes encountered while descending from
the root to each node of the tree, one entry per node; the root itself
contributes the entry 0, and descending into a non-control child leaves
the count unchanged. -/
def pathCounts (n : Node) : List Nat :=
  0 :: (children n).attach.flatMap
    (fun c => (pathCounts c.1).map (fun k => k + (if isControl c.1 then 1 else 0)))
termination_by sizeOf n
decreasing_by exact sizeOf_children_lt c.2

/-- `pathCounts` with the `attach` scaffolding removed. -/
theorem pathCounts_eq (n : Node) :
    pathCounts n =
      0 :: (children n).flatMap
        (fun c => (pathCounts c).map (fun k => k + (if isControl c then 1 else 0))) := by
  rw [pathCounts]
  congr 1
  rw [List.flatMap_def, List.flatMap_def, ← List.attach_map_val (children n)
    (fun c => (pathCounts c).map (fun k => k + (if isControl c then 1 else 0)))]

/-! ## Generic list lemmas -/

theorem countP_eq_length_filterMap {α β : Type} (f : α → Option β) (p : α → Bool)
    (h : ∀ a, (f a).isSome = p a) :
    ∀ l : List α, l.countP p = (l.filterMap f).length := by
  intro l
  induction l with
  | nil => simp
  | cons a t ih =>
    rw [List.countP_cons, List.filterMap_cons]
    cases hfa : f a with
    | none =>
      have : p a = false := by rw [← h a, hfa]; rfl
      simp [this, ih]
    | some b =>
      have : p a = true := by rw [← h a, hfa]; rfl
      simp [this, ih]

theorem length_flatMap_of_pointwise {α β : Type} (f : α → List β) (p : α → Bool)
    (h : ∀ a, (f a).length = if p a then 1 else 0) :
    ∀ l : List α, (l.flatMap f).length = l.countP p := by
  intro l
  induction l with
  | nil => simp
  | cons a t ih =>
    rw [List.flatMap_cons, List.countP_cons, List.length_append, ih, h a]
    by_cases hp : p a = true <;> (simp [hp]; try omega)

end AstEngine

namespace AstEngine

/-! ## Line-classification facts (for the metrics identity) -/

theorem comment_line_not_blank {s : String} (h : isCommentLine s = true) :
    isBlankLine s = false := by
  unfold isCommentLine at h
  unfold isBlankLine
  by_contra hb
  rw [Bool.not_eq_false] at hb
  have he : pyStrip s = "" := by simpa [String.isEmpty_iff] using hb
  rw [he] at h
  exact absurd h (by decide)

theorem isCodeLine_eq (s : String) :
    isCodeLine s = (!isBlankLine s && !isCommentLine s) := rfl

/-- Every physical line is exactly one of code, comment, blank, so the
three counts add up to the number of lines. -/
theorem length_eq_code_comment_blank (l : List String) :
    l.length =
      l.countP (fun s => isCodeLine s) + l.countP (fun s => isCommentLine s) +
      l.countP (fun s => isBlankLine s) := by
  induction l with
  | nil => simp
  | cons a t ih =>
    rw [List.length_cons, List.countP_cons, List.countP_cons, List.countP_cons, ih,
      isCodeLine_eq]
    cases hb : isBlankLine a with
    | true =>
      have hc : isCommentLine a = false := by
        cases hc : isCommentLine a with
        | true => exact absurd hb (by rw [comment_line_not_blank hc]; decide)
        | false => rfl
      simp [hb, hc]; omega
    | false =>
      cases hc : isCommentLine a with
      | true => simp [hb, hc]; omega
      | false => simp [hb, hc]; omega

/-! ## Record/count agreement facts (for the extractor and metrics) -/

theorem functionRecord_isSome (n : Node) : (functionRecord n).isSome = isFunctionDef n := by
  cases n <;> simp [functionRecord, isFunctionDef]

theorem classRecord_isSome (n : Node) : (classRecord n).isSome = isClassDef n := by
  cases n <;> simp [classRecord, isClassDef]

/-! ## Severity facts about the rules (for the severity invariant) -/

theorem dangerousFuncs_lookup_sev {fid sev desc : String}
    (h : dangerousFuncs.lookup fid = some (sev, desc)) :
    sev = HIGH ∨ sev = MEDIUM := by
  simp only [dangerousFuncs, List.lookup] at h
  split at h
  · simp only [Option.some.injEq, Prod.mk.injEq] at h; left; exact h.1.symm
  · split at h
    · simp only [Option.some.injEq, Prod.mk.injEq] at h; left; exact h.1.symm
    · split at h
      · simp only [Option.some.injEq, Prod.mk.injEq] at h; right; exact h.1.symm
      · split at h
        · simp only [Option.some.injEq, Prod.mk.injEq] at h; right; exact h.1.symm
        · exact absurd h (by simp)

theorem sev_dangerousNode {n : Node} {i : Issue}
    (h : i ∈ checkDangerousFunctionsNode n) :
    i.severity = HIGH ∨ i.severity = MEDIUM := by
  cases n
  case call ln func args kws =>
    cases func
    case name l2 fid =>
      simp only [checkDangerousFunctionsNode] at h
      cases hl : dangerousFuncs.lookup fid with
      | none => rw [hl] at h; simp at h
      | some sd =>
        obtain ⟨sev, desc⟩ := sd
        rw [hl] at h
        simp only [List.mem_singleton] at h
        subst h
        simpa using dangerousFuncs_lookup_sev hl
    all_goals simp [checkDangerousFunctionsNode] at h
  all_goals simp [checkDangerousFunctionsNode] at h

end AstEngine

namespace AstEngine

theorem sev_sqlNode {n : Node} {i : Issue} (h : i ∈ checkSqlInjectionNode n) :
    i.severity = HIGH := by
  cases n
  case call ln func args kws =>
    cases func
    case attr la v an =>
      cases args
      case nil => simp [checkSqlInjectionNode] at h
      case cons firstArg rest =>
        simp only [checkSqlInjectionNode] at h
        split at h
        · cases firstArg
          case joinedStr l2 vs =>
            simp at h; subst h; rfl
          case binOp l2 left op right =>
            cases op
            case add =>
              simp only at h
              split at h
              · simp at h; subst h; rfl
              · simp at h
            case otherOp k => simp at h
          all_goals simp at h
        · simp at h
    all_goals simp [checkSqlInjectionNode] at h
  all_goals simp [checkSqlInjectionNode] at h

theorem sev_pathNode {n : Node} {i : Issue} (h : i ∈ checkPathTraversalNode n) :
    i.severity = MEDIUM := by
  cases n
  case call ln func args kws =>
    cases func
    case name l2 fid =>
      cases args
      case nil => simp [checkPathTraversalNode] at h
      case cons firstArg rest =>
        simp only [checkPathTraversalNode] at h
        split at h
        · cases firstArg
          case name l3 id2 => simp at h; subst h; rfl
          case binOp l3 left op right => simp at h; subst h; rfl
          all_goals simp at h
        · simp at h
    all_goals simp [checkPathTraversalNode] at h
  all_goals simp [checkPathTraversalNode] at h

theorem sev_deserNode {n : Node} {i : Issue}
    (h : i ∈ checkUnsafeDeserializationNode n) : i.severity = HIGH := by
  cases n
  case call ln func args kws =>
    cases func
    case attr la v an =>
      cases v
      case name l2 vid =>
        simp only [checkUnsafeDeserializationNode] at h
        split at h
        · simp at h; subst h; rfl
        · simp at h
      all_goals simp [checkUnsafeDeserializationNode] at h
    all_goals simp [checkUnsafeDeserializationNode] at h
  all_goals simp [checkUnsafeDeserializationNode] at h

theorem sev_cryptoNode {n : Node} {i : Issue} (h : i ∈ checkWeakCryptoNode n) :
    i.severity = MEDIUM := by
  cases n
  case call ln func args kws =>
    cases func
    case attr la v an =>
      cases v
      case name l2 vid =>
        simp only [checkWeakCryptoNode] at h
        split at h
        · simp at h; subst h; rfl
        · simp at h
      all_goals simp [checkWeakCryptoNode] at h
    all_goals simp [checkWeakCryptoNode] at h
  all_goals simp [checkWeakCryptoNode] at h

theorem sev_shellNode {n : Node} {i : Issue} (h : i ∈ checkShellInjectionNode n) :
    i.severity = HIGH := by
  cases n
  case call ln func args kws =>
    cases func
    case attr la v an =>
      simp only [checkShellInjectionNode] at h
      split at h
      · simp at h; subst h; rfl
      · simp at h
    all_goals simp [checkShellInjectionNode] at h
  all_goals simp [checkShellInjectionNode] at h

theorem sev_secrets {sourceCode : String} {i : Issue}
    (h : i ∈ checkHardcodedSecrets sourceCode) : i.severity = CRITICAL := by
  rcases List.mem_flatMap.mp h with ⟨le, _, hin⟩
  rcases List.mem_filterMap.mp hin with ⟨ps, _, hps⟩
  split at hps
  · rcases Option.some.inj hps with rfl; rfl
  · exact absurd hps (by simp)

/-- Every issue produced by any rule, before sorting, has severity
CRITICAL, HIGH or MEDIUM. -/
theorem sev_runAllRules {sourceCode : String} {t : Node} {i : Issue}
    (h : i ∈ runAllRules sourceCode t) :
    i.severity = CRITICAL ∨ i.severity = HIGH ∨ i.severity = MEDIUM := by
  simp only [runAllRules, List.mem_append] at h
  rcases h with ((((((h | h) | h) | h) | h) | h) | h)
  · rcases List.mem_flatMap.mp h with ⟨n, _, hn⟩
    rcases sev_dangerousNode hn with hs | hs
    · right; left; exact hs
    · right; right; exact hs
  · rcases List.mem_flatMap.mp h with ⟨n, _, hn⟩
    right; left; exact sev_sqlNode hn
  · rcases List.mem_flatMap.mp h with ⟨n, _, hn⟩
    right; right; exact sev_pathNode hn
  · rcases List.mem_flatMap.mp h with ⟨n, _, hn⟩
    right; left; exact sev_deserNode hn
  · left; exact sev_secrets h
  · rcases List.mem_flatMap.mp h with ⟨n, _, hn⟩
    right; right; exact sev_cryptoNode hn
  · rcases List.mem_flatMap.mp h with ⟨n, _, hn⟩
    right; left; exact sev_shellNode hn

/-! ## Sort-order machinery for the scan driver -/

theorem scanLE_trans : ∀ (a b c : Issue), scanLE a b → scanLE b c → scanLE a c := by
  intro a b c hab hbc
  simp only [scanLE, decide_eq_true_eq] at *
  omega

theorem scanLE_total : ∀ (a b : Issue), scanLE a b || scanLE b a := by
  intro a b
  simp only [scanLE]
  rcases Nat.le_total (severityKey a) (severityKey b) with h | h <;> simp [h]

/-- Stability of the scan's sort: the sublist of findings of any one
severity is unchanged by the severity sort. -/
theorem mergeSort_filter_severity (l : List Issue) (s : String) :
    (l.mergeSort scanLE).filter (fun i => i.severity == s) =
      l.filter (fun i => i.severity == s) := by
  set p : Issue → Bool := fun i => i.severity == s with hp
  have hpair : (l.filter p).Pairwise (fun a b => scanLE a b = true) := by
    apply List.pairwise_of_forall_mem_list
    intro a ha b hb
    have hsa : a.severity = s := by
      have := (List.mem_filter.mp ha).2
      rwa [hp, beq_iff_eq] at this
    have hsb : b.severity = s := by
      have := (List.mem_filter.mp hb).2
      rwa [hp, beq_iff_eq] at this
    simp [scanLE, severityKey, hsa, hsb]
  have hfixed : (l.filter p).filter p = l.filter p :=
    List.filter_eq_self.mpr (fun a ha => (List.mem_filter.mp ha).2)
  have hsub : List.Sublist (l.filter p) (l.mergeSort scanLE) :=
    List.sublist_mergeSort scanLE_trans scanLE_total hpair (List.filter_sublist l)
  have hsub2 : List.Sublist (l.filter p) ((l.mergeSort scanLE).filter p) := by
    have := hsub.filter p
    rwa [hfixed] at this
  have hperm : List.Perm ((l.mergeSort scanLE).filter p) (l.filter p) :=
    (List.mergeSort_perm l scanLE).filter p
  exact (hsub2.eq_of_length hperm.length_eq.symm).symm

end AstEngine

namespace AstEngine

/-! ## Concrete evaluations of the scan -/

theorem walk_evalTree : walk evalTree =
    [.module [.exprStmt 1 (.call 1 (.name 1 "eval") [.name 1 "x"] [])],
     .exprStmt 1 (.call 1 (.name 1 "eval") [.name 1 "x"] []),
     .call 1 (.name 1 "eval") [.name 1 "x"] [], .name 1 "eval", .name 1 "x"] := by
  simp [walk, walkAux, children, evalTree]

theorem scan_evalTree : scanSecurity "eval(x)" evalTree = [evalFinding] := by
  have hsec : checkHardcodedSecrets "eval(x)" = [] := by rfl
  simp only [scanSecurity, runAllRules, checkDangerousFunctions, checkSqlInjection,
    checkPathTraversal, checkUnsafeDeserialization, checkWeakCrypto, checkShellInjection]
  rw [walk_evalTree]
  simp [hsec, checkDangerousFunctionsNode, checkSqlInjectionNode,
    checkPathTraversalNode, checkUnsafeDeserializationNode, checkWeakCryptoNode,
    checkShellInjectionNode, dangerousFuncs, List.lookup, evalFinding]

end AstEngine

namespace AstEngine

theorem walk_osSystemTree : walk osSystemTree =
    [.module [.exprStmt 1 (.call 1 (.attr 1 (.name 1 "os") "system") [.name 1 "cmd"] [])],
     .exprStmt 1 (.call 1 (.attr 1 (.name 1 "os") "system") [.name 1 "cmd"] []),
     .call 1 (.attr 1 (.name 1 "os") "system") [.name 1 "cmd"] [],
     .attr 1 (.name 1 "os") "system", .name 1 "cmd", .name 1 "os"] := by
  simp [walk, walkAux, children, osSystemTree]

theorem scan_osSystemTree : scanSecurity "os.system(cmd)" osSystemTree = [osFinding] := by
  have hsec : checkHardcodedSecrets "os.system(cmd)" = [] := by rfl
  simp only [scanSecurity, runAllRules, checkDangerousFunctions, checkSqlInjection,
    checkPathTraversal, checkUnsafeDeserialization, checkWeakCrypto, checkShellInjection]
  rw [walk_osSystemTree]
  simp [hsec, checkDangerousFunctionsNode, checkSqlInjectionNode,
    checkPathTraversalNode, checkUnsafeDeserializationNode, checkWeakCryptoNode,
    checkShellInjectionNode, dangerousFuncs, List.lookup, osFinding]

theorem walk_shellTrueTree : walk shellTrueTree =
    [.module [.exprStmt 1 (.call 1 (.attr 1 (.name 1 "subprocess") "run")
       [.name 1 "cmd"] [.keyword 1 (some "shell") (.constant 1 (.bool true))])],
     .exprStmt 1 (.call 1 (.attr 1 (.name 1 "subprocess") "run")
       [.name 1 "cmd"] [.keyword 1 (some "shell") (.constant 1 (.bool true))]),
     .call 1 (.attr 1 (.name 1 "subprocess") "run")
       [.name 1 "cmd"] [.keyword 1 (some "shell") (.constant 1 (.bool true))],
     .attr 1 (.name 1 "subprocess") "run", .name 1 "cmd",
     .keyword 1 (some "shell") (.constant 1 (.bool true)),
     .name 1 "subprocess", .constant 1 (.bool true)] := by
  simp [walk, walkAux, children, shellTrueTree]

theorem scan_shellTrueTree :
    scanSecurity "subprocess.run(cmd, shell=True)" shellTrueTree = [] := by
  have hsec : checkHardcodedSecrets "subprocess.run(cmd, shell=True)" = [] := by rfl
  simp only [scanSecurity, runAllRules, checkDangerousFunctions, checkSqlInjection,
    checkPathTraversal, checkUnsafeDeserialization, checkWeakCrypto, checkShellInjection]
  rw [walk_shellTrueTree]
  simp [hsec, checkDangerousFunctionsNode, checkSqlInjectionNode,
    checkPathTraversalNode, checkUnsafeDeserializationNode, checkWeakCryptoNode,
    checkShellInjectionNode, dangerousFuncs, List.lookup]

theorem walk_shellFalseTree : walk shellFalseTree =
    [.module [.exprStmt 1 (.call 1 (.attr 1 (.name 1 "subprocess") "run")
       [.name 1 "cmd"] [.keyword 1 (some "shell") (.constant 1 (.bool false))])],
     .exprStmt 1 (.call 1 (.attr 1 (.name 1 "subprocess") "run")
       [.name 1 "cmd"] [.keyword 1 (some "shell") (.constant 1 (.bool false))]),
     .call 1 (.attr 1 (.name 1 "subprocess") "run")
       [.name 1 "cmd"] [.keyword 1 (some "shell") (.constant 1 (.bool false))],
     .attr 1 (.name 1 "subprocess") "run", .name 1 "cmd",
     .keyword 1 (some "shell") (.constant 1 (.bool false)),
     .name 1 "subprocess", .constant 1 (.bool false)] := by
  simp [walk, walkAux, children, shellFalseTree]

theorem shellRule_shellFalseTree : checkShellInjection shellFalseTree = [] := by
  simp only [checkShellInjection]
  rw [walk_shellFalseTree]
  simp [checkShellInjectionNode]

theorem walk_pickleAliasTree : walk pickleAliasTree =
    [.module [.importStmt 1 [("pickle", some "pk")],
      .exprStmt 2 (.call 2 (.attr 2 (.name 2 "pk") "loads") [.name 2 "data"] [])],
     .importStmt 1 [("pickle", some "pk")],
     .exprStmt 2 (.call 2 (.attr 2 (.name 2 "pk") "loads") [.name 2 "data"] []),
     .call 2 (.attr 2 (.name 2 "pk") "loads") [.name 2 "data"] [],
     .attr 2 (.name 2 "pk") "loads", .name 2 "data", .name 2 "pk"] := by
  simp [walk, walkAux, children, pickleAliasTree]

theorem deserRule_pickleAliasTree : checkUnsafeDeserialization pickleAliasTree = [] := by
  simp only [checkUnsafeDeserialization]
  rw [walk_pickleAliasTree]
  simp [checkUnsafeDeserializationNode]

theorem walk_pickleTree : walk pickleTree =
    [.module [.exprStmt 1 (.call 1 (.attr 1 (.name 1 "pickle") "loads") [.name 1 "data"] [])],
     .exprStmt 1 (.call 1 (.attr 1 (.name 1 "pickle") "loads") [.name 1 "data"] []),
     .call 1 (.attr 1 (.name 1 "pickle") "loads") [.name 1 "data"] [],
     .attr 1 (.name 1 "pickle") "loads", .name 1 "data", .name 1 "pickle"] := by
  simp [walk, walkAux, children, pickleTree]

theorem scan_pickleTree :
    scanSecurity "pickle.loads(data)" pickleTree = [pickleFindingAt 1] := by
  have hsec : checkHardcodedSecrets "pickle.loads(data)" = [] := by rfl
  simp only [scanSecurity, runAllRules, checkDangerousFunctions, checkSqlInjection,
    checkPathTraversal, checkUnsafeDeserialization, checkWeakCrypto, checkShellInjection]
  rw [walk_pickleTree]
  simp [hsec, checkDangerousFunctionsNode, checkSqlInjectionNode,
    checkPathTraversalNode, checkUnsafeDeserializationNode, checkWeakCryptoNode,
    checkShellInjectionNode, dangerousFuncs, List.lookup, pickleFindingAt]

end AstEngine

namespace AstEngine

/-! ## Claim theorems -/

/-- C1: for every source text the parsing front-end accepts, `analyze`
returns a successful result that contains all four component outputs:
the structure report, the metrics, the serialized tree and the security
findings list. -/
theorem c1_analyze_success (parseFrontEnd : String → Except ParseExc Node)
    (sourceCode : String) (tree : Node)
    (h : parseFrontEnd sourceCode = .ok tree) :
    (analyze parseFrontEnd sourceCode).success = true ∧
    (analyze parseFrontEnd sourceCode).errors = [] ∧
    (analyze parseFrontEnd sourceCode).structureReport = some (getStructure tree) ∧
    (analyze parseFrontEnd sourceCode).metrics = some (getMetrics sourceCode tree) ∧
    (analyze parseFrontEnd sourceCode).serializedTree = some (astToDict tree) ∧
    (analyze parseFrontEnd sourceCode).findings = some (scanSecurity sourceCode tree) := by
  simp [analyze, h]

/-- Witness for C1: a front-end accepting the empty module. -/
theorem c1_analyze_success_witness :
    ((fun (_ : String) => (Except.ok (Node.module []) : Except ParseExc Node)) "" =
      Except.ok (Node.module [])) ∧
    (analyze (fun _ => Except.ok (Node.module [])) "").success = true ∧
    (analyze (fun _ => Except.ok (Node.module [])) "").findings =
      some (scanSecurity "" (Node.module [])) :=
  ⟨rfl, (c1_analyze_success (fun _ => Except.ok (Node.module [])) "" (Node.module []) rfl).1,
    (c1_analyze_success (fun _ => Except.ok (Node.module []))
      "" (Node.module []) rfl).2.2.2.2.2⟩

/-- C2: for every input on which the parsing front-end fails, `analyze`
returns `success = false` with a non-empty error list, the syntax-error
message carries the failing line and the description, and the structure,
metrics, serialized tree and findings are all absent; the failure is
returned as a value, so no exception reaches the caller. -/
theorem c2_analyze_parse_failure (parseFrontEnd : String → Except ParseExc Node)
    (sourceCode : String) (e : ParseExc)
    (h : parseFrontEnd sourceCode = .error e) :
    (analyze parseFrontEnd sourceCode).success = false ∧
    (analyze parseFrontEnd sourceCode).errors = [parseErrorMessage e] ∧
    (analyze parseFrontEnd sourceCode).errors ≠ [] ∧
    (analyze parseFrontEnd sourceCode).structureReport = Option.none ∧
    (analyze parseFrontEnd sourceCode).metrics = Option.none ∧
    (analyze parseFrontEnd sourceCode).serializedTree = Option.none ∧
    (analyze parseFrontEnd sourceCode).findings = Option.none ∧
    (∀ ln msg, e = .syntaxError ln msg →
      parseErrorMessage e = "Syntax error at line " ++ toString ln ++ ": " ++ msg) := by
  refine ⟨?_, ?_, ?_, ?_, ?_, ?_, ?_, ?_⟩
  · simp [analyze, h]
  · simp [analyze, h]
  · simp [analyze, h]
  · simp [analyze, h]
  · simp [analyze, h]
  · simp [analyze, h]
  · simp [analyze, h]
  · intro ln msg he; subst he; rfl

/-- Witness for C2: a front-end reporting a syntax error at line 3. -/
theorem c2_analyze_parse_failure_witness :
    ((fun (_ : String) =>
        (Except.error (ParseExc.syntaxError 3 "invalid syntax") : Except ParseExc Node))
      "def f(:" = Except.error (ParseExc.syntaxError 3 "invalid syntax")) ∧
    (analyze (fun _ => Except.error (ParseExc.syntaxError 3 "invalid syntax"))
      "def f(:").success = false ∧
    (analyze (fun _ => Except.error (ParseExc.syntaxError 3 "invalid syntax"))
      "def f(:").errors = ["Syntax error at line 3: invalid syntax"] :=
  ⟨rfl,
   (c2_analyze_parse_failure _ "def f(:" (ParseExc.syntaxError 3 "invalid syntax") rfl).1,
   by
    have h2 := (c2_analyze_parse_failure
      (fun _ => Except.error (ParseExc.syntaxError 3 "invalid syntax"))
      "def f(:" (ParseExc.syntaxError 3 "invalid syntax") rfl).2.1
    simpa [parseErrorMessage] using h2⟩

/-- C3: for every source unit and tree, the findings list of the scan is
sorted non-decreasing by severity rank (CRITICAL = 0 through INFO = 4),
and the findings of any one severity appear exactly in rule-execution
order (the order `runAllRules` emitted them), not in source-line order. -/
theorem c3_findings_sorted_stable (sourceCode : String) (t : Node) :
    ((scanSecurity sourceCode t).Pairwise
        (fun a b => severityKey a ≤ severityKey b)) ∧
    (∀ s : String, (scanSecurity sourceCode t).filter (fun i => i.severity == s) =
        (runAllRules sourceCode t).filter (fun i => i.severity == s)) ∧
    (∀ i : Issue, i.severity = CRITICAL → severityKey i = 0) ∧
    (∀ i : Issue, i.severity = HIGH → severityKey i = 1) ∧
    (∀ i : Issue, i.severity = MEDIUM → severityKey i = 2) ∧
    (∀ i : Issue, i.severity = LOW → severityKey i = 3) ∧
    (∀ i : Issue, i.severity = INFO → severityKey i = 4) := by
  refine ⟨?_, ?_, ?_, ?_, ?_, ?_, ?_⟩
  · have hs := List.sorted_mergeSort scanLE_trans scanLE_total (runAllRules sourceCode t)
    exact hs.imp (fun hab => by simpa [scanLE] using hab)
  · intro s
    exact mergeSort_filter_severity (runAllRules sourceCode t) s
  · intro i h; simp only [severityKey, h]; rfl
  · intro i h; simp only [severityKey, h]; rfl
  · intro i h; simp only [severityKey, h]; rfl
  · intro i h; simp only [severityKey, h]; rfl
  · intro i h; simp only [severityKey, h]; rfl

/-- C4: for every source text, the line counts partition the physical
lines: `total_lines = code_lines + comment_lines + blank_lines`, where a
line is blank if empty after trimming, a comment line if it starts with
`#` after trimming, and a code line otherwise.  (The identity holds for
all inputs, in particular those free of multi-line string literals that
visually resemble comments.) -/
theorem c4_total_lines_partition (sourceCode : String) (t : Node) :
    (getMetrics sourceCode t).totalLines =
      (getMetrics sourceCode t).codeLines + (getMetrics sourceCode t).commentLines +
        (getMetrics sourceCode t).blankLines := by
  simp only [getMetrics]
  exact length_eq_code_comment_blank (pySplitlines sourceCode)

/-- C5: the metrics calculator's `function_count` equals the length of
the structure report's `functions` list, and `class_count` equals the
length of its `classes` list: the two independent traversals agree. -/
theorem c5_counts_match_structure (sourceCode : String) (t : Node) :
    (getMetrics sourceCode t).functionCount = (getStructure t).functions.length ∧
    (getMetrics sourceCode t).classCount = (getStructure t).classes.length := by
  constructor
  · exact countP_eq_length_filterMap functionRecord _ functionRecord_isSome (walk t)
  · exact countP_eq_length_filterMap classRecord _ classRecord_isSome (walk t)

/-- C10: every finding the scan ever returns has severity CRITICAL, HIGH
or MEDIUM; although the severity order defines LOW and INFO, no rule
emits them. -/
theorem c10_severity_invariant (sourceCode : String) (t : Node) (i : Issue)
    (h : i ∈ scanSecurity sourceCode t) :
    (i.severity = CRITICAL ∨ i.severity = HIGH ∨ i.severity = MEDIUM) ∧
    i.severity ≠ LOW ∧ i.severity ≠ INFO := by
  have hm : i ∈ runAllRules sourceCode t := by
    have := h
    simp only [scanSecurity] at this
    exact List.mem_mergeSort.mp this
  have hs := sev_runAllRules hm
  refine ⟨hs, ?_, ?_⟩ <;>
    rcases hs with h1 | h1 | h1 <;>
      simp [h1, CRITICAL, HIGH, MEDIUM, LOW, INFO]

/-- Witness for C10 at the `eval(x)` scan. -/
theorem c10_severity_invariant_witness :
    evalFinding ∈ scanSecurity "eval(x)" evalTree ∧
    (evalFinding.severity = CRITICAL ∨ evalFinding.severity = HIGH ∨
      evalFinding.severity = MEDIUM) :=
  ⟨by simp [scan_evalTree],
   (c10_severity_invariant "eval(x)" evalTree evalFinding (by simp [scan_evalTree])).1⟩

end AstEngine

namespace AstEngine

/-! ## Strong induction over trees and walk membership -/

theorem node_strong_ind (P : Node → Prop)
    (ih : ∀ n, (∀ c ∈ children n, P c) → P n) : ∀ n, P n := fun n =>
  ih n (fun c hc => node_strong_ind P ih c)
termination_by n => sizeOf n
decreasing_by exact sizeOf_children_lt hc

/-- `m` occurs in the tree rooted at `n` (reflexive-transitive descent
through `children`). -/
inductive InTree : Node → Node → Prop where
  | refl (n : Node) : InTree n n
  | step {m c n : Node} : c ∈ children n → InTree m c → InTree m n

theorem inTree_iff (m n : Node) :
    InTree m n ↔ m = n ∨ ∃ c ∈ children n, InTree m c := by
  constructor
  · intro h
    cases h with
    | refl => left; rfl
    | step hc hm => right; exact ⟨_, hc, hm⟩
  · intro h
    rcases h with rfl | ⟨c, hc, hm⟩
    · exact .refl _
    · exact .step hc hm

theorem mem_walkAux (m : Node) :
    ∀ l : List Node, m ∈ walkAux l ↔ ∃ r ∈ l, InTree m r := by
  intro l
  induction l using walkAux.induct with
  | case1 => simp [walkAux]
  | case2 n rest ih =>
    rw [walkAux]
    simp only [List.mem_cons, ih, List.mem_append]
    constructor
    · rintro (rfl | ⟨r, hr | hr, hm⟩)
      · exact ⟨m, Or.inl rfl, .refl m⟩
      · exact ⟨r, Or.inr hr, hm⟩
      · exact ⟨n, Or.inl rfl, .step hr hm⟩
    · rintro ⟨r, rfl | hr, hm⟩
      · rcases (inTree_iff m r).mp hm with rfl | ⟨c, hc, hm2⟩
        · exact Or.inl rfl
        · exact Or.inr ⟨c, Or.inr hc, hm2⟩
      · exact Or.inr ⟨r, Or.inl hr, hm⟩

theorem mem_walk (m t : Node) : m ∈ walk t ↔ InTree m t := by
  rw [walk, mem_walkAux]
  simp

/-! ## Arithmetic facts about `maxNat` and `pathCounts` -/

theorem maxNat_cons (a : Nat) (l : List Nat) : maxNat (a :: l) = max a (maxNat l) := rfl

theorem maxNat_append (l1 l2 : List Nat) :
    maxNat (l1 ++ l2) = max (maxNat l1) (maxNat l2) := by
  induction l1 with
  | nil => simp [maxNat]
  | cons a t ih => simp only [List.cons_append, maxNat_cons, ih]; omega

theorem maxNat_flatMap {α : Type} (f : α → List Nat) (l : List α) :
    maxNat (l.flatMap f) = maxNat (l.map (fun x => maxNat (f x))) := by
  induction l with
  | nil => rfl
  | cons a t ih => simp only [List.flatMap_cons, maxNat_append, List.map_cons, maxNat_cons, ih]

theorem maxNat_map_add_of_ne_nil (c : Nat) :
    ∀ l : List Nat, l ≠ [] → maxNat (l.map (fun k => k + c)) = maxNat l + c
  | [], h => absurd rfl h
  | [a], _ => by simp [maxNat, maxNat_cons]
  | a :: b :: t, _ => by
    have ih := maxNat_map_add_of_ne_nil c (b :: t) (by simp)
    simp only [List.map_cons, maxNat_cons] at *
    omega

theorem maxNat_eq_zero_iff (l : List Nat) : maxNat l = 0 ↔ ∀ x ∈ l, x = 0 := by
  induction l with
  | nil => simp [maxNat]
  | cons a t ih => simp [maxNat_cons, ih, Nat.max_eq_zero_iff]

theorem pathCounts_ne_nil (n : Node) : pathCounts n ≠ [] := by
  rw [pathCounts_eq]; simp

theorem foldl_max_eq (g : Node → Nat) (l : List Node) (d : Nat) :
    l.foldl (fun md c => max md (g c)) d = max d (maxNat (l.map g)) := by
  induction l generalizing d with
  | nil => simp [maxNat]
  | cons a t ih => simp only [List.foldl_cons, List.map_cons, maxNat_cons, ih]; omega

theorem max_add_maxNat_map (e : Node → Nat) (l : List Node) (d : Nat) :
    max d (maxNat (l.map (fun c => d + e c))) = d + maxNat (l.map e) := by
  induction l with
  | nil => simp [maxNat]
  | cons a t ih => simp only [List.map_cons, maxNat_cons] at *; omega

/-- The recursive depth calculator agrees with the path-count
characterization: starting at depth `d` it returns `d` plus the maximum
number of control-kind nodes on any descending path. -/
theorem calcMaxDepth_eq_pathCounts : ∀ (n : Node) (d : Nat),
    calcMaxDepth n d = d + maxNat (pathCounts n) := by
  have main := node_strong_ind
    (fun n => ∀ d, calcMaxDepth n d = d + maxNat (pathCounts n)) ?_
  · exact main
  · intro n ih d
    rw [calcMaxDepth_eq, foldl_max_eq]
    rw [List.map_congr_left
      (fun c hc => ih c hc (if isControl c then d + 1 else d))]
    conv_rhs => rw [pathCounts_eq]
    rw [maxNat_cons, maxNat_flatMap]
    rw [List.map_congr_left (fun c _ =>
      maxNat_map_add_of_ne_nil (if isControl c then 1 else 0) (pathCounts c)
        (pathCounts_ne_nil c))]
    have hmap2 : ((children n).map
          (fun c => (if isControl c then d + 1 else d) + maxNat (pathCounts c)))
        = (children n).map
          (fun c => d + (maxNat (pathCounts c) + (if isControl c then 1 else 0))) :=
      List.map_congr_left (fun c _ => by cases hc : isControl c <;> (simp [hc]; try omega))
    rw [hmap2, max_add_maxNat_map]
    omega

/-- A tree with no control-kind node anywhere has all path counts 0. -/
theorem maxNat_pathCounts_zero : ∀ t : Node,
    (∀ m ∈ walk t, isControl m = false) → maxNat (pathCounts t) = 0 := by
  have main := node_strong_ind
    (fun t => (∀ m ∈ walk t, isControl m = false) → maxNat (pathCounts t) = 0) ?_
  · exact main
  · intro n ih hno
    rw [pathCounts_eq, maxNat_cons, maxNat_flatMap]
    have hz : ∀ c ∈ children n, maxNat ((pathCounts c).map
        (fun k => k + (if isControl c then 1 else 0))) = 0 := by
      intro c hc
      have hcw : isControl c = false :=
        hno c ((mem_walk c n).mpr (.step hc (.refl c)))
      have hrec : maxNat (pathCounts c) = 0 := by
        apply ih c hc
        intro m hm
        exact hno m ((mem_walk m n).mpr (.step hc ((mem_walk m c).mp hm)))
      rw [hcw]
      simpa using hrec
    rw [List.map_congr_left hz]
    simp [maxNat_eq_zero_iff]

end AstEngine

namespace AstEngine

/-- C6: `max_nesting_depth` equals the maximum, over all root-to-node
paths, of the number of control-kind nodes (If, For, While, With, Try,
FunctionDef, ClassDef) encountered while descending (`pathCounts`
assigns that number to every node, adding 1 exactly when descending into
a control-kind child and leaving the count unchanged otherwise), and a
tree containing no such node yields 0. -/
theorem c6_max_nesting_depth (sourceCode : String) (t : Node) :
    (getMetrics sourceCode t).maxNestingDepth = maxNat (pathCounts t) ∧
    ((∀ m ∈ walk t, isControl m = false) →
      (getMetrics sourceCode t).maxNestingDepth = 0) := by
  constructor
  · simp only [getMetrics]
    have := calcMaxDepth_eq_pathCounts t 0
    omega
  · intro h
    simp only [getMetrics]
    have h1 := calcMaxDepth_eq_pathCounts t 0
    have h2 := maxNat_pathCounts_zero t h
    omega

/-- Witness for C6 on a control-free tree. -/
theorem c6_max_nesting_depth_witness :
    (∀ m ∈ walk (Node.module [Node.name 1 "x"]), isControl m = false) ∧
    (getMetrics "x" (Node.module [Node.name 1 "x"])).maxNestingDepth = 0 := by
  have h : ∀ m ∈ walk (Node.module [Node.name 1 "x"]), isControl m = false := by
    intro m hm
    have hw : walk (Node.module [Node.name 1 "x"]) =
        [Node.module [Node.name 1 "x"], Node.name 1 "x"] := by
      simp [walk, walkAux, children]
    rw [hw] at hm
    simp only [List.mem_cons, List.not_mem_nil, or_false] at hm
    rcases hm with rfl | rfl <;> rfl
  exact ⟨h, (c6_max_nesting_depth "x" (Node.module [Node.name 1 "x"])).2 h⟩

/-- The per-node issue list of the dangerous-function rule is a
singleton exactly on matching nodes. -/
theorem dangerousNode_length (n : Node) :
    (checkDangerousFunctionsNode n).length = if isDangerousCall n then 1 else 0 := by
  cases n
  case call ln func args kws =>
    cases func
    case name l2 fid =>
      rcases hl : dangerousFuncs.lookup fid with _ | ⟨sev, desc⟩ <;>
        simp [checkDangerousFunctionsNode, isDangerousCall, hl]
    all_goals simp [checkDangerousFunctionsNode, isDangerousCall]
  all_goals simp [checkDangerousFunctionsNode, isDangerousCall]

/-- C7: a direct call to a bare name in the dangerous-function table
(eval, exec, compile, `__import__`) makes the rule emit exactly one
finding, at the node's line, titled with the function name, with severity
HIGH for eval/exec and MEDIUM for compile/`__import__`; over a whole tree
the rule emits exactly one finding per matching call node; and `eval(x)`
yields exactly one HIGH finding whose title references `eval`. -/
theorem c7_dangerous_rule :
    (∀ (ln ln2 : Nat) (fid : String) (args kws : List Node) (sev desc : String),
        dangerousFuncs.lookup fid = some (sev, desc) →
        checkDangerousFunctionsNode (.call ln (.name ln2 fid) args kws) =
          [{ severity := sev,
             title := "Dangerous function: " ++ fid ++ "()",
             description := desc,
             lineno := ln,
             recommendation := "Avoid using " ++ fid ++ "(). " ++
               "Consider safer alternatives like ast.literal_eval() for eval(), " ++
               "or refactor to eliminate dynamic code execution." }]) ∧
    (∀ t : Node,
        (checkDangerousFunctions t).length = (walk t).countP isDangerousCall) ∧
    dangerousFuncs.lookup "eval" = some (HIGH, "Arbitrary code execution risk") ∧
    dangerousFuncs.lookup "exec" = some (HIGH, "Arbitrary code execution risk") ∧
    dangerousFuncs.lookup "compile" = some (MEDIUM, "Dynamic code compilation") ∧
    dangerousFuncs.lookup "__import__" =
      some (MEDIUM, "Dynamic import can load malicious code") ∧
    scanSecurity "eval(x)" evalTree = [evalFinding] ∧
    evalFinding.severity = HIGH ∧
    (∃ pre post, evalFinding.title = pre ++ "eval" ++ post) := by
  refine ⟨?_, ?_, rfl, rfl, rfl, rfl, scan_evalTree, rfl, "Dangerous function: ", "()", rfl⟩
  · intro ln ln2 fid args kws sev desc h
    simp [checkDangerousFunctionsNode, h]
  · intro t
    exact length_flatMap_of_pointwise checkDangerousFunctionsNode isDangerousCall
      dangerousNode_length (walk t)

/-- Witness for C7 at a concrete `exec` call node. -/
theorem c7_dangerous_rule_witness :
    dangerousFuncs.lookup "exec" = some (HIGH, "Arbitrary code execution risk") ∧
    checkDangerousFunctionsNode (.call 5 (.name 5 "exec") [] []) =
      [{ severity := HIGH,
         title := "Dangerous function: " ++ "exec" ++ "()",
         description := "Arbitrary code execution risk",
         lineno := 5,
         recommendation := "Avoid using " ++ "exec" ++ "(). " ++
           "Consider safer alternatives like ast.literal_eval() for eval(), " ++
           "or refactor to eliminate dynamic code execution." }] :=
  ⟨rfl, c7_dangerous_rule.1 5 5 "exec" [] [] HIGH "Arbitrary code execution risk" rfl⟩

/-- C8: evaluations of the shell-injection rule at the claim's inputs.
`os.system(cmd)` yields exactly one HIGH finding and
`subprocess.run(cmd, shell=False)` yields none, as claimed; but
`subprocess.run(cmd, shell=True)` also yields none: the `elif` arm of
`_check_shell_injection` that should detect `shell=True` pairs with the
outer `isinstance(node.func, ast.Attribute)` test and is unreachable, so
the code diverges from the claim on this input. -/
theorem c8_shell_rule_evaluations :
    scanSecurity "os.system(cmd)" osSystemTree = [osFinding] ∧
    osFinding.severity = HIGH ∧
    checkShellInjection shellFalseTree = [] ∧
    scanSecurity "subprocess.run(cmd, shell=True)" shellTrueTree = [] ∧
    (∀ t : Node, ∀ i ∈ checkShellInjection t,
      i.title = "Shell injection risk: os.system()") := by
  refine ⟨scan_osSystemTree, rfl, shellRule_shellFalseTree, scan_shellTrueTree, ?_⟩
  intro t i hi
  rcases List.mem_flatMap.mp hi with ⟨n, -, hn⟩
  cases n
  case call ln func args kws =>
    cases func
    case attr la v an =>
      simp only [checkShellInjectionNode] at hn
      split at hn
      · simp at hn; subst hn; rfl
      · simp at hn
    all_goals simp [checkShellInjectionNode] at hn
  all_goals simp [checkShellInjectionNode] at hn

/-- C9 counterexample: in the two-line unit `import pickle as pk` /
`pk.loads(data)` the pickling module is imported under the local alias
`pk` (as the structure report's import record shows) and the tree
contains the call `pk.loads(data)`, yet the unsafe-deserialization rule
emits no finding at all. -/
theorem c9_alias_counterexample :
    (getStructure pickleAliasTree).imports =
      [{ moduleName := "pickle", asname := some "pk", lineno := 1 }] ∧
    (Node.call 2 (.attr 2 (.name 2 "pk") "loads") [.name 2 "data"] []) ∈
      walk pickleAliasTree ∧
    checkUnsafeDeserialization pickleAliasTree = [] := by
  refine ⟨?_, ?_, deserRule_pickleAliasTree⟩
  · simp only [getStructure]
    rw [walk_pickleAliasTree]
    simp [importRecords]
  · rw [walk_pickleAliasTree]
    simp

/-- C9 (amended): the unsafe-deserialization rule emits a HIGH finding at
the call's line exactly for calls `<name>.loads(...)`/`<name>.load(...)`
whose receiver is literally the bare name `pickle`; a receiver that is a
local alias of the pickling module is not matched (the scanner does no
alias resolution). -/
theorem c9_pickle_literal_only :
    (∀ (ln la ln2 : Nat) (vid attrName : String) (args kws : List Node),
        (attrName = "loads" ∨ attrName = "load") →
        checkUnsafeDeserializationNode
            (.call ln (.attr la (.name ln2 vid) attrName) args kws) =
          (if vid = "pickle" then [pickleFindingAt ln] else [])) ∧
    (∀ (t n : Node) (i : Issue), n ∈ walk t →
        i ∈ checkUnsafeDeserializationNode n → i ∈ checkUnsafeDeserialization t) ∧
    scanSecurity "pickle.loads(data)" pickleTree = [pickleFindingAt 1] ∧
    (pickleFindingAt 1).severity = HIGH := by
  refine ⟨?_, ?_, scan_pickleTree, rfl⟩
  · intro ln la ln2 vid attrName args kws h
    by_cases hv : vid = "pickle"
    · rcases h with rfl | rfl <;> simp [checkUnsafeDeserializationNode, hv, pickleFindingAt]
    · rcases h with rfl | rfl <;> simp [checkUnsafeDeserializationNode, hv]
  · intro t n i hn hi
    exact List.mem_flatMap.mpr ⟨n, hn, hi⟩

/-- Witness for C9 (amended) at a concrete `pickle.load` call node. -/
theorem c9_pickle_literal_only_witness :
    ("load" = "loads" ∨ "load" = "load") ∧
    checkUnsafeDeserializationNode
        (.call 7 (.attr 7 (.name 7 "pickle") "load") [] []) =
      (if "pickle" = "pickle" then [pickleFindingAt 7] else []) :=
  ⟨Or.inr rfl, c9_pickle_literal_only.1 7 7 7 "pickle" "load" [] [] (Or.inr rfl)⟩

end AstEngine

namespace AstEngine

theorem shellRule_osSystemTree : checkShellInjection osSystemTree = [osFinding] := by
  simp only [checkShellInjection]
  rw [walk_osSystemTree]
  simp [checkShellInjectionNode, osFinding]

/-- Witness for C8's universal part at the `os.system(cmd)` finding. -/
theorem c8_shell_rule_evaluations_witness :
    osFinding ∈ checkShellInjection osSystemTree ∧
    osFinding.title = "Shell injection risk: os.system()" :=
  ⟨by simp [shellRule_osSystemTree],
   c8_shell_rule_evaluations.2.2.2.2 osSystemTree osFinding
     (by simp [shellRule_osSystemTree])⟩

/-- Witness for C3's rank table at the `eval(x)` finding. -/
theorem c3_findings_sorted_stable_witness :
    evalFinding.severity = HIGH ∧ severityKey evalFinding = 1 :=
  ⟨rfl, (c3_findings_sorted_stable "eval(x)" evalTree).2.2.2.1 evalFinding rfl⟩

end AstEngine
